import Mathlib

/-!
# Thrift multiplexing layer (Go library)

A shallow embedding of `lib/go/thrift/multiplexed_protocol.go` and
`lib/go/thrift/server_socket.go`.

* Go strings are byte sequences.
* `int32` values (message kinds, sequence ids) are integers; they are only
  compared and passed along, never computed with.
* An object with hidden mutable state (the wrapped codec, the network) is a
  record of state transformers over an explicit state type.
* A Go interface value that may be `nil` is an `Option`.
-/

namespace Thrift

/-- A Go `string`: an immutable sequence of bytes. -/
abbrev GoString := List (Fin 256)

/-- Go `type TMessageType int32`. -/
abbrev TMessageType := Int

/-- The message-kind constants `CALL` and `ONEWAY` used by the rewriter are
declared elsewhere in the package; the development is parametric in them. -/
structure MessageKinds where
  CALL : TMessageType
  ONEWAY : TMessageType

/-- The part of the Go `TProtocol` interface that the multiplexing layer
refers to, as state transformers over the codec state `σ`; `ε` is the type of
non-nil Go errors, so `Option ε` is a Go `error`. -/
structure TProtocol (σ ε : Type) where
  WriteMessageBegin : GoString → TMessageType → Int → σ → Option ε × σ
  ReadMessageBegin : σ → (GoString × TMessageType × Int × Option ε) × σ

/-- Go `type TMultiplexedProtocol struct { TProtocol; serviceName string }`. -/
structure TMultiplexedProtocol (σ ε : Type) where
  TProtocol : Thrift.TProtocol σ ε
  serviceName : GoString

/-- Go `const MULTIPLEXED_SEPARATOR = ":"`. -/
def MULTIPLEXED_SEPARATOR : GoString := [58]

/-- Go `NewTMultiplexedProtocol`. -/
def NewTMultiplexedProtocol {σ ε : Type} (protocol : Thrift.TProtocol σ ε)
    (serviceName : GoString) : TMultiplexedProtocol σ ε :=
  { TProtocol := protocol, serviceName := serviceName }

/-- Go `(*TMultiplexedProtocol).WriteMessageBegin`. -/
def TMultiplexedProtocol.WriteMessageBegin {σ ε : Type} (K : MessageKinds)
    (t : TMultiplexedProtocol σ ε) (name : GoString) (typeId : TMessageType)
    (seqid : Int) (st : σ) : Option ε × σ :=
  if typeId = K.CALL ∨ typeId = K.ONEWAY then
    t.TProtocol.WriteMessageBegin
      (t.serviceName ++ MULTIPLEXED_SEPARATOR ++ name) typeId seqid st
  else
    t.TProtocol.WriteMessageBegin name typeId seqid st

/-- The interface view of a `TMultiplexedProtocol`: the embedded codec's
methods are promoted, `WriteMessageBegin` is overridden. -/
def TMultiplexedProtocol.asTProtocol {σ ε : Type} (K : MessageKinds)
    (t : TMultiplexedProtocol σ ε) : Thrift.TProtocol σ ε :=
  { t.TProtocol with WriteMessageBegin := t.WriteMessageBegin K }

/-- Go `type storedMessageProtocol struct { TProtocol; name; typeId; seqid }`. -/
structure storedMessageProtocol (σ ε : Type) where
  TProtocol : Thrift.TProtocol σ ε
  name : GoString
  typeId : TMessageType
  seqid : Int

/-- Go `NewStoredMessageProtocol`. -/
def NewStoredMessageProtocol {σ ε : Type} (protocol : Thrift.TProtocol σ ε)
    (name : GoString) (typeId : TMessageType) (seqid : Int) :
    storedMessageProtocol σ ε :=
  { TProtocol := protocol, name := name, typeId := typeId, seqid := seqid }

/-- Go `(*storedMessageProtocol).ReadMessageBegin`: the stored fields and a
nil error; the embedded codec is not referred to. -/
def storedMessageProtocol.ReadMessageBegin {σ ε : Type}
    (s : storedMessageProtocol σ ε) (st : σ) :
    (GoString × TMessageType × Int × Option ε) × σ :=
  ((s.name, s.typeId, s.seqid, none), st)

/-- The interface view of a `storedMessageProtocol`: the embedded codec's
methods are promoted, `ReadMessageBegin` is overridden. -/
def storedMessageProtocol.asTProtocol {σ ε : Type}
    (s : storedMessageProtocol σ ε) : Thrift.TProtocol σ ε :=
  { s.TProtocol with ReadMessageBegin := s.ReadMessageBegin }

/-- One call received by a codec. -/
inductive CodecCall where
  | writeMessageBegin (name : GoString) (typeId : TMessageType) (seqid : Int)
  | readMessageBegin
  deriving DecidableEq, Repr

/-- A codec that behaves as `P` and additionally appends every call it
receives to a log kept next to the state of `P`. -/
def traced {σ ε : Type} (P : Thrift.TProtocol σ ε) :
    Thrift.TProtocol (σ × List CodecCall) ε where
  WriteMessageBegin name typeId seqid st :=
    let r := P.WriteMessageBegin name typeId seqid st.1
    (r.1, (r.2, st.2 ++ [CodecCall.writeMessageBegin name typeId seqid]))
  ReadMessageBegin st :=
    let r := P.ReadMessageBegin st.1
    (r.1, (r.2, st.2 ++ [CodecCall.readMessageBegin]))

/-! ## The service dispatcher -/

/-- A Go `map[string]V`: either `nil` or a table of entries. -/
inductive GoMap (ν : Type) where
  | nil
  | table (entries : GoString → Option ν)

/-- Go `make(map[string]V)`: a table without entries. -/
def GoMap.make {ν : Type} : GoMap ν := GoMap.table (fun _ => none)

/-- Go `m == nil`. -/
def GoMap.isNil {ν : Type} : GoMap ν → Bool
  | GoMap.nil => true
  | GoMap.table _ => false

/-- Go `v, ok := m[k]`; a nil map has no entries. -/
def GoMap.lookup {ν : Type} : GoMap ν → GoString → Option ν
  | GoMap.nil, _ => none
  | GoMap.table entries, k => entries k

/-- Go `m[k] = v`; on a nil map this is a run-time failure, rendered `none`. -/
def GoMap.assign {ν : Type} : GoMap ν → GoString → ν → Option (GoMap ν)
  | GoMap.nil, _, _ => none
  | GoMap.table entries, k, v =>
      some (GoMap.table (fun k' => if k' = k then some v else entries k'))

/-- Go `type TMultiplexedProcessor struct`. A value of the interface type
`TProcessor` is an `Option π`, with `none` for the nil interface value. -/
structure TMultiplexedProcessor (π : Type) where
  serviceProcessorMap : GoMap (Option π)
  DefaultProcessor : Option π

/-- Go `NewTMultiplexedProcessor`: a made map, and the zero value (nil) for
the default processor. -/
def NewTMultiplexedProcessor {π : Type} : TMultiplexedProcessor π :=
  { serviceProcessorMap := GoMap.make, DefaultProcessor := none }

/-- Go `(*TMultiplexedProcessor).RegisterDefault`. -/
def TMultiplexedProcessor.RegisterDefault {π : Type}
    (t : TMultiplexedProcessor π) (processor : Option π) :
    TMultiplexedProcessor π :=
  { t with DefaultProcessor := processor }

/-- Go `(*TMultiplexedProcessor).RegisterProcessor`; the result is `none`
when the map assignment fails at run time. -/
def TMultiplexedProcessor.RegisterProcessor {π : Type}
    (t : TMultiplexedProcessor π) (name : GoString) (processor : Option π) :
    Option (TMultiplexedProcessor π) :=
  let t1 : TMultiplexedProcessor π :=
    if t.serviceProcessorMap.isNil then
      { t with serviceProcessorMap := GoMap.make }
    else t
  (t1.serviceProcessorMap.assign name processor).map
    (fun m => { t1 with serviceProcessorMap := m })

/-- Go `strings.Index(s, substr)`: the index of the first occurrence of
`substr` in `s`, with `none` in place of `-1`. -/
def stringsIndex (s substr : GoString) : Option Nat :=
  match s with
  | [] => if substr.isPrefixOf [] then some 0 else none
  | c :: rest =>
      if substr.isPrefixOf (c :: rest) then some 0
      else (stringsIndex rest substr).map (fun i => i + 1)

/-- Modelled from the spec: the Call Handler interface,
`Process(codec) → (success bool, error)`; the Go interface `TProcessor` is
declared outside the files of the multiplexing layer. -/
structure TProcessor (σ ε : Type) where
  Process : Thrift.TProtocol σ ε → σ → (Bool × Option ε) × σ

/-- Modelled from the spec: the errors that `Process` of the dispatcher
returns. Codec and handler errors are passed on (`passed`); the dispatcher
adds one error class of its own, unknown-service. -/
inductive TException (ε : Type) where
  | passed (e : ε)
  | unknownService (name : GoString)
  deriving DecidableEq, Repr

/-- Modelled from the spec: the routing decision of the dispatcher for one
inbound header (`Routed(Service)`, `Routed(Default)`, `Unresolved`). -/
inductive Route (π : Type) where
  | service (handler : Option π) (methodName : GoString)
  | fallback (handler : π) (name : GoString)
  | unresolved

/-- Modelled from the spec: steps 2 and 3 of `TMultiplexedProcessor.Process`,
which is not among the source files. The first occurrence of the separator
splits the name; a registered service is routed with the method name, and
otherwise the default handler, if any, is routed with the original name. -/
def TMultiplexedProcessor.resolve {π : Type} (t : TMultiplexedProcessor π)
    (name : GoString) : Route π :=
  let viaDefault : Route π :=
    match t.DefaultProcessor with
    | some d => Route.fallback d name
    | none => Route.unresolved
  match stringsIndex name MULTIPLEXED_SEPARATOR with
  | some i =>
      match t.serviceProcessorMap.lookup (name.take i) with
      | some h => Route.service h (name.drop (i + MULTIPLEXED_SEPARATOR.length))
      | none => viaDefault
  | none => viaDefault

/-- Modelled from the spec: the invocation `handler.Process(shim)` with the
codec wrapped in a message replay shim carrying `(name, kind, seqID)`; the
handler's result is returned unchanged. Calling a nil interface value is a
run-time failure, rendered `none`. -/
def invokeHandler {σ ε : Type} (handler : Option (TProcessor σ ε))
    (codec : Thrift.TProtocol σ ε) (name : GoString) (kind : TMessageType)
    (seqID : Int) (st : σ) : Option ((Bool × Option (TException ε)) × σ) :=
  match handler with
  | none => none
  | some h =>
      let r := h.Process (NewStoredMessageProtocol codec name kind seqID).asTProtocol st
      some ((r.1.1, r.1.2.map TException.passed), r.2)

/-- Modelled from the spec: `TMultiplexedProcessor.Process`, which is not
among the source files. Step 1 reads the real header through the codec (a
codec error is passed on); then the route is resolved and the one selected
handler is invoked, or the unknown-service error is returned without reading
further. -/
def TMultiplexedProcessor.Process {σ ε : Type}
    (t : TMultiplexedProcessor (TProcessor σ ε)) (codec : Thrift.TProtocol σ ε)
    (st : σ) : Option ((Bool × Option (TException ε)) × σ) :=
  match codec.ReadMessageBegin st with
  | ((_, _, _, some e), st1) => some ((false, some (TException.passed e)), st1)
  | ((name, kind, seqID, none), st1) =>
      match t.resolve name with
      | Route.service h methodName => invokeHandler h codec methodName kind seqID st1
      | Route.fallback d original => invokeHandler (some d) codec original kind seqID st1
      | Route.unresolved => some ((false, some (TException.unknownService name)), st1)

/-! ## The server socket -/

/-- The operations of Go package `net` that the server socket calls, as state
transformers over the state `ω` of the network stack: `net.Listen` at an
address, and `Accept` and `Close` of a listener. `E` is the type of non-nil
Go errors. -/
structure Net (ω A L C E : Type) where
  Listen : A → ω → Except E L × ω
  Accept : L → ω → Except E C × ω
  Close : L → ω → Option E × ω

/-- The error values and constructors that the server socket refers to and
that are declared elsewhere in the package, and the constructor of the
transport returned by `Accept`; the development is parametric in them.
`notOpen` stands for
`NewTTransportException(NOT_OPEN, "No underlying server socket")` and
`alreadyOpen` for
`NewTTransportException(ALREADY_OPEN, "Server socket already open")`. -/
structure TransportDecls (C E T : Type) where
  errTransportInterrupted : E
  notOpen : E
  alreadyOpen : E
  NewTTransportExceptionFromError : E → E
  NewTSocketFromConnTimeout : C → Int → T

/-- Go `type TServerSocket struct`. The read-write mutex guarding
`interrupted` is left out: calls are taken one at a time. `time.Duration` is
an integer number of nanoseconds; `listener` is `none` for nil. -/
structure TServerSocket (A L : Type) where
  listener : Option L
  addr : A
  clientTimeout : Int
  interrupted : Bool

/-- Go `NewTServerSocketFromAddrTimeout`: the remaining fields have their
zero values. -/
def NewTServerSocketFromAddrTimeout {A L : Type} (addr : A) (clientTimeout : Int) :
    TServerSocket A L :=
  { listener := none, addr := addr, clientTimeout := clientTimeout, interrupted := false }

/-- Go `(*TServerSocket).IsListening`. -/
def TServerSocket.IsListening {A L : Type} (p : TServerSocket A L) : Bool :=
  p.listener.isSome

/-- Go `(*TServerSocket).Listen`. -/
def TServerSocket.Listen {ω A L C E : Type} (net : Net ω A L C E)
    (p : TServerSocket A L) (w : ω) : Option E × TServerSocket A L × ω :=
  if p.IsListening then (none, p, w)
  else
    match net.Listen p.addr w with
    | (Except.error err, w1) => (some err, p, w1)
    | (Except.ok l, w1) => (none, { p with listener := some l }, w1)

/-- Go `(*TServerSocket).Accept`; the socket itself is not modified. -/
def TServerSocket.Accept {ω A L C E T : Type} (net : Net ω A L C E)
    (D : TransportDecls C E T) (p : TServerSocket A L) (w : ω) :
    (Option T × Option E) × ω :=
  if p.interrupted then ((none, some D.errTransportInterrupted), w)
  else
    match p.listener with
    | none => ((none, some D.notOpen), w)
    | some listener =>
        match net.Accept listener w with
        | (Except.error err, w1) => ((none, some (D.NewTTransportExceptionFromError err)), w1)
        | (Except.ok conn, w1) =>
            ((some (D.NewTSocketFromConnTimeout conn p.clientTimeout), none), w1)

/-- Go `(*TServerSocket).Open`. -/
def TServerSocket.Open {ω A L C E T : Type} (net : Net ω A L C E)
    (D : TransportDecls C E T) (p : TServerSocket A L) (w : ω) :
    Option E × TServerSocket A L × ω :=
  if p.IsListening then (some D.alreadyOpen, p, w)
  else
    match net.Listen p.addr w with
    | (Except.error err, w1) => (some err, p, w1)
    | (Except.ok l, w1) => (none, { p with listener := some l }, w1)

/-- Go `(*TServerSocket).Close`: the deferred function clears `listener` on
every path. -/
def TServerSocket.Close {ω A L C E : Type} (net : Net ω A L C E)
    (p : TServerSocket A L) (w : ω) : Option E × TServerSocket A L × ω :=
  match p.listener with
  | some listener =>
      let r := net.Close listener w
      (r.1, { p with listener := none }, r.2)
  | none => (none, { p with listener := none }, w)

/-- Go `(*TServerSocket).Interrupt`: the result of `Close` is dropped. -/
def TServerSocket.Interrupt {ω A L C E : Type} (net : Net ω A L C E)
    (p : TServerSocket A L) (w : ω) : Option E × TServerSocket A L × ω :=
  let r := TServerSocket.Close net { p with interrupted := true } w
  (none, r.2.1, r.2.2)

/-- The calls that a client of the server socket can make. -/
inductive SocketCall where
  | Listen
  | Accept
  | Open
  | Close
  | Interrupt
  deriving DecidableEq, Repr

/-- The effect of one call on the socket and on the network; results are
dropped. -/
def SocketCall.run {ω A L C E T : Type} (net : Net ω A L C E)
    (D : TransportDecls C E T) (c : SocketCall) (s : TServerSocket A L × ω) :
    TServerSocket A L × ω :=
  match c with
  | SocketCall.Listen => (TServerSocket.Listen net s.1 s.2).2
  | SocketCall.Accept => (s.1, (TServerSocket.Accept net D s.1 s.2).2)
  | SocketCall.Open => (TServerSocket.Open net D s.1 s.2).2
  | SocketCall.Close => (TServerSocket.Close net s.1 s.2).2
  | SocketCall.Interrupt => (TServerSocket.Interrupt net s.1 s.2).2

/-- The effect of a sequence of calls, first call first. -/
def runCalls {ω A L C E T : Type} (net : Net ω A L C E)
    (D : TransportDecls C E T) (cs : List SocketCall) (s : TServerSocket A L × ω) :
    TServerSocket A L × ω :=
  cs.foldl (fun acc c => c.run net D acc) s

/-! ## Test doubles -/

/-- The state of the loopback codec: the headers in flight, and the headers
that the probing handler has observed. -/
structure Loop where
  wire : List (GoString × TMessageType × Int)
  seen : List (GoString × TMessageType × Int)
  deriving DecidableEq, Repr

/-- A codec that delivers headers in the order written; reading from an empty
wire is an error. -/
def loopback : Thrift.TProtocol Loop Unit where
  WriteMessageBegin name typeId seqid st :=
    (none, { st with wire := st.wire ++ [(name, typeId, seqid)] })
  ReadMessageBegin st :=
    match st.wire with
    | [] => (([], 0, 0, some ()), st)
    | (name, typeId, seqid) :: rest => ((name, typeId, seqid, none), { st with wire := rest })

/-- A handler that reads the message header from the codec it is given and
notes what it observed. -/
def probe : TProcessor Loop Unit where
  Process codec st :=
    let r := codec.ReadMessageBegin st
    ((true, none), { r.2 with seen := r.2.seen ++ [(r.1.1, r.1.2.1, r.1.2.2.1)] })

/-- The message kinds of the Thrift wire protocol, for concrete runs. -/
def wireKinds : MessageKinds := { CALL := 1, ONEWAY := 4 }

/-- A dispatcher set up through the registration calls: the probing handler
is registered under the service name "A"; there is no default handler. -/
def probeDispatcher : TMultiplexedProcessor (TProcessor Loop Unit) :=
  (NewTMultiplexedProcessor.RegisterProcessor [65] (some probe)).getD
    NewTMultiplexedProcessor

/-- The loopback state with nothing in flight and nothing observed. -/
def emptyLoop : Loop := { wire := [], seen := [] }

/-- A network in which every `net.Listen` succeeds; its state counts the
calls of `Accept` on a listener. -/
def countingNet : Net Nat Unit Unit Unit Nat where
  Listen _ w := (Except.ok (), w)
  Accept _ w := (Except.ok (), w + 1)
  Close _ w := (none, w)

/-- Error values told apart by number, for concrete runs. -/
def plainDecls : TransportDecls Unit Nat (Unit × Int) where
  errTransportInterrupted := 0
  notOpen := 1
  alreadyOpen := 2
  NewTTransportExceptionFromError e := e + 10
  NewTSocketFromConnTimeout conn timeout := (conn, timeout)

/-! ## Theorems -/

/-- C1: for a kind in {CALL, ONEWAY}, `WriteMessageBegin` of the multiplexed
protocol is exactly one call of the wrapped codec's `WriteMessageBegin` with
the name `S ++ ":" ++ name`, the same kind and the same sequence id: result
and codec state are those of that call, and a call-recording codec records
that single call and nothing else. -/
theorem TMultiplexedProtocol.WriteMessageBegin_call_oneway {σ ε : Type}
    (K : MessageKinds) (P : Thrift.TProtocol σ ε) (S name : GoString)
    (k : TMessageType) (seqid : Int) (st : σ) (log : List CodecCall)
    (hk : k = K.CALL ∨ k = K.ONEWAY) :
    (NewTMultiplexedProtocol P S).WriteMessageBegin K name k seqid st
        = P.WriteMessageBegin (S ++ [58] ++ name) k seqid st
      ∧ (NewTMultiplexedProtocol (traced P) S).WriteMessageBegin K name k seqid (st, log)
        = ((P.WriteMessageBegin (S ++ [58] ++ name) k seqid st).1,
           (P.WriteMessageBegin (S ++ [58] ++ name) k seqid st).2,
           log ++ [CodecCall.writeMessageBegin (S ++ [58] ++ name) k seqid]) := by
  constructor <;>
    simp [TMultiplexedProtocol.WriteMessageBegin, NewTMultiplexedProtocol,
      MULTIPLEXED_SEPARATOR, traced, hk]

/-- The rewriter on the loopback codec: service "A", method "f", kind 1
(CALL). -/
theorem TMultiplexedProtocol.WriteMessageBegin_call_oneway_witness :
    ((1 : TMessageType) = wireKinds.CALL ∨ (1 : TMessageType) = wireKinds.ONEWAY)
      ∧ ((NewTMultiplexedProtocol loopback [65]).WriteMessageBegin wireKinds [102] 1 7
            { wire := [], seen := [] }
          = loopback.WriteMessageBegin ([65] ++ [58] ++ [102]) 1 7 { wire := [], seen := [] }
        ∧ (NewTMultiplexedProtocol (traced loopback) [65]).WriteMessageBegin wireKinds [102] 1 7
            ({ wire := [], seen := [] }, [])
          = ((loopback.WriteMessageBegin ([65] ++ [58] ++ [102]) 1 7
                { wire := [], seen := [] }).1,
             (loopback.WriteMessageBegin ([65] ++ [58] ++ [102]) 1 7
                { wire := [], seen := [] }).2,
             [] ++ [CodecCall.writeMessageBegin ([65] ++ [58] ++ [102]) 1 7])) :=
  ⟨by decide,
   TMultiplexedProtocol.WriteMessageBegin_call_oneway wireKinds loopback [65] [102] 1 7
     { wire := [], seen := [] } [] (by decide)⟩

/-- C2: for a kind other than CALL and ONEWAY, `WriteMessageBegin` of the
multiplexed protocol is exactly one call of the wrapped codec's
`WriteMessageBegin` with the name, the kind and the sequence id it was given:
result and codec state are those of that call, and a call-recording codec
records that single call and nothing else. -/
theorem TMultiplexedProtocol.WriteMessageBegin_other_kind {σ ε : Type}
    (K : MessageKinds) (P : Thrift.TProtocol σ ε) (S name : GoString)
    (k : TMessageType) (seqid : Int) (st : σ) (log : List CodecCall)
    (hcall : k ≠ K.CALL) (honeway : k ≠ K.ONEWAY) :
    (NewTMultiplexedProtocol P S).WriteMessageBegin K name k seqid st
        = P.WriteMessageBegin name k seqid st
      ∧ (NewTMultiplexedProtocol (traced P) S).WriteMessageBegin K name k seqid (st, log)
        = ((P.WriteMessageBegin name k seqid st).1,
           (P.WriteMessageBegin name k seqid st).2,
           log ++ [CodecCall.writeMessageBegin name k seqid]) := by
  constructor <;>
    simp [TMultiplexedProtocol.WriteMessageBegin, NewTMultiplexedProtocol, traced,
      hcall, honeway]

/-- The rewriter on the loopback codec: service "A", name "f", kind 2
(neither CALL nor ONEWAY). -/
theorem TMultiplexedProtocol.WriteMessageBegin_other_kind_witness :
    ((2 : TMessageType) ≠ wireKinds.CALL ∧ (2 : TMessageType) ≠ wireKinds.ONEWAY)
      ∧ ((NewTMultiplexedProtocol loopback [65]).WriteMessageBegin wireKinds [102] 2 7
            { wire := [], seen := [] }
          = loopback.WriteMessageBegin [102] 2 7 { wire := [], seen := [] }
        ∧ (NewTMultiplexedProtocol (traced loopback) [65]).WriteMessageBegin wireKinds [102] 2 7
            ({ wire := [], seen := [] }, [])
          = ((loopback.WriteMessageBegin [102] 2 7 { wire := [], seen := [] }).1,
             (loopback.WriteMessageBegin [102] 2 7 { wire := [], seen := [] }).2,
             [] ++ [CodecCall.writeMessageBegin [102] 2 7])) :=
  ⟨⟨by decide, by decide⟩,
   TMultiplexedProtocol.WriteMessageBegin_other_kind wireKinds loopback [65] [102] 2 7
     { wire := [], seen := [] } [] (by decide) (by decide)⟩

/-- Reading the header of a stored-message protocol any number of times
leaves the codec state where it was. -/
theorem storedMessageProtocol.iterate_ReadMessageBegin {σ ε : Type}
    (s : storedMessageProtocol σ ε) (st : σ) (n : Nat) :
    (fun x => (s.ReadMessageBegin x).2)^[n] st = st := by
  induction n with
  | zero => rfl
  | succ n ih => rw [Function.iterate_succ_apply']; rw [ih]; rfl

/-- C3: `ReadMessageBegin` of `NewStoredMessageProtocol(codec, name, typeId,
seqid)` returns `(name, typeId, seqid)` and a nil error whatever the wrapped
codec is, leaves the codec state unchanged (a call-recording codec records no
call), and returns the same after any number `n` of earlier calls; the same
holds through the interface view handed to a handler. -/
theorem storedMessageProtocol.ReadMessageBegin_fixed {σ ε : Type}
    (P : Thrift.TProtocol σ ε) (name : GoString) (typeId : TMessageType)
    (seqid : Int) (st : σ) (log : List CodecCall) (n : Nat) :
    (NewStoredMessageProtocol P name typeId seqid).ReadMessageBegin st
        = ((name, typeId, seqid, none), st)
      ∧ (NewStoredMessageProtocol (traced P) name typeId seqid).ReadMessageBegin (st, log)
        = ((name, typeId, seqid, none), (st, log))
      ∧ (NewStoredMessageProtocol P name typeId seqid).ReadMessageBegin
          ((fun x => ((NewStoredMessageProtocol P name typeId seqid).ReadMessageBegin x).2)^[n] st)
        = ((name, typeId, seqid, none), st)
      ∧ (NewStoredMessageProtocol P name typeId seqid).asTProtocol.ReadMessageBegin st
        = ((name, typeId, seqid, none), st) := by
  refine ⟨rfl, rfl, ?_, rfl⟩
  rw [storedMessageProtocol.iterate_ReadMessageBegin]
  rfl

/-- C6: `RegisterProcessor(n, p)` succeeds on every dispatcher state; after it
the registry maps `n` to `p`, the entry of every other name is as before, and
the default handler is as before. Registering `p1` and then `p2` under `n`
leaves `p2`. -/
theorem TMultiplexedProcessor.RegisterProcessor_entry {π : Type}
    (t : TMultiplexedProcessor π) (n : GoString) (p p1 p2 : Option π) :
    (∃ t1, t.RegisterProcessor n p = some t1
        ∧ t1.serviceProcessorMap.lookup n = some p
        ∧ (∀ m, m ≠ n → t1.serviceProcessorMap.lookup m = t.serviceProcessorMap.lookup m)
        ∧ t1.DefaultProcessor = t.DefaultProcessor)
      ∧ (∃ t1 t2, t.RegisterProcessor n p1 = some t1
        ∧ t1.RegisterProcessor n p2 = some t2
        ∧ t2.serviceProcessorMap.lookup n = some p2) := by
  obtain ⟨m, d⟩ := t
  cases m with
  | nil =>
      refine ⟨⟨_, rfl, ?_, ?_, rfl⟩, ⟨_, _, rfl, rfl, ?_⟩⟩
      · simp [GoMap.lookup]
      · intro k hk
        simp [GoMap.lookup, hk]
      · simp [GoMap.lookup]
  | table entries =>
      refine ⟨⟨_, rfl, ?_, ?_, rfl⟩, ⟨_, _, rfl, rfl, ?_⟩⟩
      · simp [GoMap.lookup]
      · intro k hk
        simp [GoMap.lookup, hk]
      · simp [GoMap.lookup]

/-- C7: on a dispatcher whose map is nil, `RegisterProcessor(n, p)` succeeds
and ends with a table holding the single entry `n -> p` (default handler
untouched); on no dispatcher state does it fail; and
`NewTMultiplexedProcessor` has a non-nil map without entries and no default
handler. -/
theorem TMultiplexedProcessor.RegisterProcessor_nil_map {π : Type}
    (d : Option π) (n : GoString) (p : Option π) (t : TMultiplexedProcessor π) :
    TMultiplexedProcessor.RegisterProcessor
        { serviceProcessorMap := GoMap.nil, DefaultProcessor := d } n p
        = some { serviceProcessorMap :=
                   GoMap.table (fun k => if k = n then some p else none),
                 DefaultProcessor := d }
      ∧ (t.RegisterProcessor n p).isSome = true
      ∧ (NewTMultiplexedProcessor : TMultiplexedProcessor π).serviceProcessorMap.isNil = false
      ∧ (∀ k, (NewTMultiplexedProcessor : TMultiplexedProcessor π).serviceProcessorMap.lookup k
            = none)
      ∧ (NewTMultiplexedProcessor : TMultiplexedProcessor π).DefaultProcessor = none := by
  refine ⟨rfl, ?_, rfl, fun _ => rfl, rfl⟩
  obtain ⟨m, d⟩ := t
  cases m <;> rfl

/-- C8: after `RegisterDefault(h)` the default handler is `h` whatever it was
before, and the service registry is as before; after `RegisterDefault(h1)`
and then `RegisterDefault(h2)` the default handler is `h2`. -/
theorem TMultiplexedProcessor.RegisterDefault_sets {π : Type}
    (t : TMultiplexedProcessor π) (h h1 h2 : Option π) :
    (t.RegisterDefault h).DefaultProcessor = h
      ∧ (t.RegisterDefault h).serviceProcessorMap = t.serviceProcessorMap
      ∧ ((t.RegisterDefault h1).RegisterDefault h2).DefaultProcessor = h2
      ∧ ((t.RegisterDefault h1).RegisterDefault h2).serviceProcessorMap
          = t.serviceProcessorMap :=
  ⟨rfl, rfl, rfl, rfl⟩

/-! ### The composite name -/

/-- The separator is the one-byte string ":"; a string contains it exactly
when it contains the byte. -/
theorem separator_infix_iff (s : GoString) :
    MULTIPLEXED_SEPARATOR <:+: s ↔ (58 : Fin 256) ∈ s := by
  constructor
  · rintro ⟨a, b, rfl⟩
    simp [MULTIPLEXED_SEPARATOR]
  · intro h
    obtain ⟨a, b, rfl⟩ := List.append_of_mem h
    exact ⟨a, b, by simp [MULTIPLEXED_SEPARATOR]⟩

/-- In `S ++ ":" ++ M`, with no ":" in `S`, the first ":" is at index
`len(S)`. -/
theorem stringsIndex_composite (S M : GoString)
    (hS : ¬ MULTIPLEXED_SEPARATOR <:+: S) :
    stringsIndex (S ++ MULTIPLEXED_SEPARATOR ++ M) MULTIPLEXED_SEPARATOR
      = some S.length := by
  rw [separator_infix_iff] at hS
  induction S with
  | nil => simp [stringsIndex, MULTIPLEXED_SEPARATOR, List.isPrefixOf]
  | cons a S ih =>
      have ha : ¬ (58 : Fin 256) = a := fun h => hS (by simp [h])
      have hS1 : (58 : Fin 256) ∉ S := fun h => hS (by simp [h])
      have ih1 := ih hS1
      simp only [MULTIPLEXED_SEPARATOR, List.append_assoc, List.cons_append,
        List.nil_append] at ih1 ⊢
      simp [stringsIndex, List.isPrefixOf, ha, ih1]

/-- A found index is the position of an occurrence: `substr` starts there. -/
theorem stringsIndex_some_isPrefixOf (s substr : GoString) (i : Nat)
    (h : stringsIndex s substr = some i) : substr.isPrefixOf (s.drop i) = true := by
  induction s generalizing i with
  | nil =>
      simp only [stringsIndex] at h
      split at h
      · rename_i hp
        cases h
        simpa using hp
      · cases h
  | cons c rest ih =>
      simp only [stringsIndex] at h
      split at h
      · rename_i hp
        cases h
        simpa using hp
      · cases hr : stringsIndex rest substr with
        | none => simp [hr] at h
        | some j =>
            simp [hr] at h
            subst h
            simpa using ih j hr

/-- A found index is the first one: `substr` starts at no earlier position. -/
theorem stringsIndex_some_first (s substr : GoString) (i j : Nat)
    (h : stringsIndex s substr = some i) (hj : j < i) :
    substr.isPrefixOf (s.drop j) = false := by
  induction s generalizing i j with
  | nil =>
      simp only [stringsIndex] at h
      split at h
      · cases h; omega
      · cases h
  | cons c rest ih =>
      simp only [stringsIndex] at h
      split at h
      · cases h; omega
      · rename_i hp
        cases hr : stringsIndex rest substr with
        | none => simp [hr] at h
        | some i1 =>
            simp [hr] at h
            subst h
            cases j with
            | zero => exact Bool.eq_false_iff.mpr hp
            | succ j1 => simpa using ih i1 j1 hr (by omega)

/-- Nothing is found only where there is no occurrence. -/
theorem stringsIndex_none (s substr : GoString)
    (h : stringsIndex s substr = none) : ¬ substr <:+: s := by
  induction s with
  | nil =>
      simp only [stringsIndex] at h
      split at h
      · cases h
      · rename_i hp
        intro hin
        have : substr = [] := List.eq_nil_of_infix_nil hin
        subst this
        simp at hp
  | cons c rest ih =>
      simp only [stringsIndex] at h
      split at h
      · cases h
      · rename_i hp
        cases hr : stringsIndex rest substr with
        | some i1 => simp [hr] at h
        | none =>
            intro hin
            rcases List.infix_cons_iff.mp hin with hpre | hrest
            · exact hp (by simpa using hpre)
            · exact ih hr hrest

/-- C9: let the multiplexed protocols for services `S1` and `S2`, neither
containing ":", write CALL or ONEWAY headers for methods `M1` and `M2` (which
may contain ":") to a call-recording codec. If the wrapped codec is handed
the same name `n` in both cases, then `S1 = S2` and `M1 = M2`; and the first
":" of `n` is at index `len(S1)`, with `S1` before it and `M1` after it. -/
theorem TMultiplexedProtocol.composite_name_unambiguous {σ ε : Type}
    (K : MessageKinds) (P : Thrift.TProtocol σ ε) (S1 S2 M1 M2 n : GoString)
    (k1 k2 : TMessageType) (q1 q2 : Int) (st1 st2 : σ)
    (hk1 : k1 = K.CALL ∨ k1 = K.ONEWAY) (hk2 : k2 = K.CALL ∨ k2 = K.ONEWAY)
    (hS1 : ¬ MULTIPLEXED_SEPARATOR <:+: S1) (hS2 : ¬ MULTIPLEXED_SEPARATOR <:+: S2)
    (h1 : ((NewTMultiplexedProtocol (traced P) S1).WriteMessageBegin K M1 k1 q1 (st1, [])).2.2
            = [CodecCall.writeMessageBegin n k1 q1])
    (h2 : ((NewTMultiplexedProtocol (traced P) S2).WriteMessageBegin K M2 k2 q2 (st2, [])).2.2
            = [CodecCall.writeMessageBegin n k2 q2]) :
    S1 = S2 ∧ M1 = M2
      ∧ stringsIndex n MULTIPLEXED_SEPARATOR = some S1.length
      ∧ n.take S1.length = S1
      ∧ n.drop (S1.length + MULTIPLEXED_SEPARATOR.length) = M1 := by
  have e1 : S1 ++ MULTIPLEXED_SEPARATOR ++ M1 = n := by
    simpa [TMultiplexedProtocol.WriteMessageBegin, NewTMultiplexedProtocol, traced, hk1]
      using h1
  have e2 : S2 ++ MULTIPLEXED_SEPARATOR ++ M2 = n := by
    simpa [TMultiplexedProtocol.WriteMessageBegin, NewTMultiplexedProtocol, traced, hk2]
      using h2
  have i1 := stringsIndex_composite S1 M1 hS1
  have i2 := stringsIndex_composite S2 M2 hS2
  rw [e1] at i1
  rw [e2, i1] at i2
  have hlen : S1.length = S2.length := Option.some.inj i2
  have hcat : S1 ++ (MULTIPLEXED_SEPARATOR ++ M1) = S2 ++ (MULTIPLEXED_SEPARATOR ++ M2) := by
    rw [← List.append_assoc, ← List.append_assoc, e1, e2]
  have hboth := List.append_inj hcat hlen
  refine ⟨hboth.1, List.append_cancel_left hboth.2, i1, ?_, ?_⟩
  · rw [← e1]
    simp
  · rw [← e1]
    simp [MULTIPLEXED_SEPARATOR]

/-- Two headers written for service "A" and the method "f:g", which contains
":"; the name handed to the codec is "A:f:g". -/
theorem TMultiplexedProtocol.composite_name_unambiguous_witness :
    (((1 : TMessageType) = wireKinds.CALL ∨ (1 : TMessageType) = wireKinds.ONEWAY)
      ∧ ((4 : TMessageType) = wireKinds.CALL ∨ (4 : TMessageType) = wireKinds.ONEWAY)
      ∧ ¬ MULTIPLEXED_SEPARATOR <:+: ([65] : GoString)
      ∧ ((NewTMultiplexedProtocol (traced loopback) [65]).WriteMessageBegin wireKinds
            [102, 58, 103] 1 7 ({ wire := [], seen := [] }, [])).2.2
          = [CodecCall.writeMessageBegin [65, 58, 102, 58, 103] 1 7]
      ∧ ((NewTMultiplexedProtocol (traced loopback) [65]).WriteMessageBegin wireKinds
            [102, 58, 103] 4 8 ({ wire := [], seen := [] }, [])).2.2
          = [CodecCall.writeMessageBegin [65, 58, 102, 58, 103] 4 8])
      ∧ (([65] : GoString) = [65] ∧ ([102, 58, 103] : GoString) = [102, 58, 103]
        ∧ stringsIndex [65, 58, 102, 58, 103] MULTIPLEXED_SEPARATOR
            = some ([65] : GoString).length
        ∧ ([65, 58, 102, 58, 103] : GoString).take ([65] : GoString).length = [65]
        ∧ ([65, 58, 102, 58, 103] : GoString).drop
            (([65] : GoString).length + MULTIPLEXED_SEPARATOR.length) = [102, 58, 103]) :=
  ⟨⟨by decide, by decide, by decide, by decide, by decide⟩,
   TMultiplexedProtocol.composite_name_unambiguous wireKinds loopback [65] [65]
     [102, 58, 103] [102, 58, 103] [65, 58, 102, 58, 103] 1 4 7 8
     { wire := [], seen := [] } { wire := [], seen := [] }
     (by decide) (by decide) (by decide) (by decide) (by decide) (by decide)⟩

/-! ### Dispatch -/

/-- C4: let the multiplexed protocol for a service `S` without ":" write a
CALL or ONEWAY header for method `M` to a codec that hands a written header
back on the next read, and let a dispatcher with handler `h` registered under
`S` process what was written. Then the dispatcher routes to `h` with method
name `M`; `Process` is the invocation of `h` on the replay shim carrying
`(M, k, seqid)`, whose result it returns; and the header that `h` reads from
that shim is `(M, k, seqid)` with a nil error. `M` is arbitrary, so the
statement covers every `M` without ":". -/
theorem TMultiplexedProcessor.Process_roundtrip {σ ε : Type} (K : MessageKinds)
    (codec : Thrift.TProtocol σ ε) (t : TMultiplexedProcessor (TProcessor σ ε))
    (h : TProcessor σ ε) (S M : GoString) (k : TMessageType) (seqid : Int) (st : σ)
    (hS : ¬ MULTIPLEXED_SEPARATOR <:+: S)
    (hk : k = K.CALL ∨ k = K.ONEWAY)
    (hreg : t.serviceProcessorMap.lookup S = some (some h))
    (hcodec : ∀ name, (codec.ReadMessageBegin
        (codec.WriteMessageBegin name k seqid st).2).1 = (name, k, seqid, none)) :
    t.resolve (codec.ReadMessageBegin
        ((NewTMultiplexedProtocol codec S).WriteMessageBegin K M k seqid st).2).1.1
        = Route.service (some h) M
      ∧ t.Process codec ((NewTMultiplexedProtocol codec S).WriteMessageBegin K M k seqid st).2
        = some (((h.Process (NewStoredMessageProtocol codec M k seqid).asTProtocol
                    (codec.ReadMessageBegin
                      ((NewTMultiplexedProtocol codec S).WriteMessageBegin K M k seqid st).2).2).1.1,
                 (h.Process (NewStoredMessageProtocol codec M k seqid).asTProtocol
                    (codec.ReadMessageBegin
                      ((NewTMultiplexedProtocol codec S).WriteMessageBegin K M k seqid st).2).2).1.2.map
                   TException.passed),
                (h.Process (NewStoredMessageProtocol codec M k seqid).asTProtocol
                    (codec.ReadMessageBegin
                      ((NewTMultiplexedProtocol codec S).WriteMessageBegin K M k seqid st).2).2).2)
      ∧ ∀ s, (NewStoredMessageProtocol codec M k seqid).asTProtocol.ReadMessageBegin s
          = ((M, k, seqid, none), s) := by
  have hw : (NewTMultiplexedProtocol codec S).WriteMessageBegin K M k seqid st
      = codec.WriteMessageBegin (S ++ MULTIPLEXED_SEPARATOR ++ M) k seqid st := by
    simp [TMultiplexedProtocol.WriteMessageBegin, NewTMultiplexedProtocol, hk]
  have hr := hcodec (S ++ MULTIPLEXED_SEPARATOR ++ M)
  rw [← hw] at hr
  have hroute : t.resolve (S ++ MULTIPLEXED_SEPARATOR ++ M) = Route.service (some h) M := by
    unfold TMultiplexedProcessor.resolve
    rw [stringsIndex_composite S M hS]
    have htake : (S ++ MULTIPLEXED_SEPARATOR ++ M).take S.length = S := by simp
    have hdrop : (S ++ MULTIPLEXED_SEPARATOR ++ M).drop
        (S.length + MULTIPLEXED_SEPARATOR.length) = M := by
      simp [MULTIPLEXED_SEPARATOR]
    simp only [htake, hdrop, hreg]
  refine ⟨by rw [hr]; exact hroute, ?_, fun _ => rfl⟩
  unfold TMultiplexedProcessor.Process
  generalize codec.ReadMessageBegin
    ((NewTMultiplexedProtocol codec S).WriteMessageBegin K M k seqid st).2 = r at hr ⊢
  obtain ⟨hdr, st2⟩ := r
  simp only at hr
  subst hr
  simp only [hroute, invokeHandler]

/-- Rewriter, loopback codec and dispatcher in a row: service "A", method
"f", kind CALL, sequence id 7, the probing handler registered under "A". -/
theorem TMultiplexedProcessor.Process_roundtrip_witness :
    (¬ MULTIPLEXED_SEPARATOR <:+: ([65] : GoString)
      ∧ ((1 : TMessageType) = wireKinds.CALL ∨ (1 : TMessageType) = wireKinds.ONEWAY)
      ∧ probeDispatcher.serviceProcessorMap.lookup [65] = some (some probe)
      ∧ ∀ name, (loopback.ReadMessageBegin
          (loopback.WriteMessageBegin name 1 7 emptyLoop).2).1 = (name, 1, 7, none))
      ∧ (probeDispatcher.resolve (loopback.ReadMessageBegin
            ((NewTMultiplexedProtocol loopback [65]).WriteMessageBegin wireKinds [102] 1 7
              emptyLoop).2).1.1
          = Route.service (some probe) [102]
        ∧ probeDispatcher.Process loopback
            ((NewTMultiplexedProtocol loopback [65]).WriteMessageBegin wireKinds [102] 1 7
              emptyLoop).2
          = some (((probe.Process (NewStoredMessageProtocol loopback [102] 1 7).asTProtocol
                      (loopback.ReadMessageBegin
                        ((NewTMultiplexedProtocol loopback [65]).WriteMessageBegin wireKinds
                          [102] 1 7 emptyLoop).2).2).1.1,
                   (probe.Process (NewStoredMessageProtocol loopback [102] 1 7).asTProtocol
                      (loopback.ReadMessageBegin
                        ((NewTMultiplexedProtocol loopback [65]).WriteMessageBegin wireKinds
                          [102] 1 7 emptyLoop).2).2).1.2.map
                     TException.passed),
                  (probe.Process (NewStoredMessageProtocol loopback [102] 1 7).asTProtocol
                      (loopback.ReadMessageBegin
                        ((NewTMultiplexedProtocol loopback [65]).WriteMessageBegin wireKinds
                          [102] 1 7 emptyLoop).2).2).2)
        ∧ ∀ s, (NewStoredMessageProtocol loopback [102] 1 7).asTProtocol.ReadMessageBegin s
            = ((([102] : GoString), (1 : TMessageType), (7 : Int), (none : Option Unit)), s)) :=
  ⟨⟨by decide, by decide, rfl, fun _ => rfl⟩,
   TMultiplexedProcessor.Process_roundtrip wireKinds loopback probeDispatcher probe
     [65] [102] 1 7 emptyLoop (by decide) (by decide) rfl (fun _ => rfl)⟩

/-- The loopback run evaluated: the probing handler reports success and has
observed the header ("f", 1, 7); the wire is empty again. The same for a
method name "f:g" and kind ONEWAY. -/
theorem TMultiplexedProcessor.probe_observes_method :
    probeDispatcher.Process loopback
        ((NewTMultiplexedProtocol loopback [65]).WriteMessageBegin wireKinds [102] 1 7
          emptyLoop).2
        = some ((true, none), { wire := [], seen := [([102], 1, 7)] })
      ∧ probeDispatcher.Process loopback
        ((NewTMultiplexedProtocol loopback [65]).WriteMessageBegin wireKinds [102, 58, 103] 4 9
          emptyLoop).2
        = some ((true, none), { wire := [], seen := [([102, 58, 103], 4, 9)] }) := by
  decide

/-- C5: when no default handler is registered and the service that the name
of the inbound header names (the part before the first ":", if there is one)
is not in the registry, the dispatcher routes to no handler, and `Process`
returns the unknown-service error in the codec state reached by reading the
header; that error differs from every error passed on from a codec or a
handler. -/
theorem TMultiplexedProcessor.Process_unknown_service {σ ε : Type}
    (codec : Thrift.TProtocol σ ε) (t : TMultiplexedProcessor (TProcessor σ ε))
    (name : GoString) (k : TMessageType) (seqid : Int) (st st1 : σ)
    (hread : codec.ReadMessageBegin st = ((name, k, seqid, none), st1))
    (hdefault : t.DefaultProcessor = none)
    (hservice : ∀ i, stringsIndex name MULTIPLEXED_SEPARATOR = some i →
        t.serviceProcessorMap.lookup (name.take i) = none) :
    t.resolve name = Route.unresolved
      ∧ t.Process codec st = some ((false, some (TException.unknownService name)), st1)
      ∧ ∀ e : ε, TException.unknownService name ≠ TException.passed e := by
  have hroute : t.resolve name = Route.unresolved := by
    unfold TMultiplexedProcessor.resolve
    cases hi : stringsIndex name MULTIPLEXED_SEPARATOR with
    | none => simp only [hdefault]
    | some i => simp only [hservice i hi, hdefault]
  refine ⟨hroute, ?_, fun e he => by cases he⟩
  unfold TMultiplexedProcessor.Process
  rw [hread]
  simp only [hroute]

/-- The dispatcher on the loopback codec: the inbound name is "U:p", only "A"
is registered, and there is no default handler. -/
theorem TMultiplexedProcessor.Process_unknown_service_witness :
    (loopback.ReadMessageBegin { wire := [([85, 58, 112], 1, 7)], seen := [] }
          = ((([85, 58, 112] : GoString), (1 : TMessageType), (7 : Int), none), emptyLoop)
      ∧ probeDispatcher.DefaultProcessor = none
      ∧ ∀ i, stringsIndex [85, 58, 112] MULTIPLEXED_SEPARATOR = some i →
          probeDispatcher.serviceProcessorMap.lookup (([85, 58, 112] : GoString).take i) = none)
      ∧ (probeDispatcher.resolve [85, 58, 112] = Route.unresolved
        ∧ probeDispatcher.Process loopback { wire := [([85, 58, 112], 1, 7)], seen := [] }
            = some ((false, some (TException.unknownService [85, 58, 112])), emptyLoop)
        ∧ ∀ e : Unit, TException.unknownService [85, 58, 112] ≠ TException.passed e) :=
  have hsvc : ∀ i, stringsIndex [85, 58, 112] MULTIPLEXED_SEPARATOR = some i →
      probeDispatcher.serviceProcessorMap.lookup (([85, 58, 112] : GoString).take i) = none :=
    fun i hi => by
      have h1 : stringsIndex [85, 58, 112] MULTIPLEXED_SEPARATOR = some 1 := by decide
      rw [h1] at hi
      cases hi
      rfl
  ⟨⟨rfl, rfl, hsvc⟩,
   TMultiplexedProcessor.Process_unknown_service loopback probeDispatcher [85, 58, 112] 1 7
     { wire := [([85, 58, 112], 1, 7)], seen := [] } emptyLoop rfl rfl hsvc⟩

/-! ### The server socket -/

/-- No call resets the `interrupted` flag. -/
theorem SocketCall.run_interrupted {ω A L C E T : Type} (net : Net ω A L C E)
    (D : TransportDecls C E T) (c : SocketCall) (s : TServerSocket A L × ω)
    (h : s.1.interrupted = true) : (c.run net D s).1.interrupted = true := by
  obtain ⟨p, w⟩ := s
  cases c
  · simp only [SocketCall.run, TServerSocket.Listen]
    split
    · exact h
    · split <;> exact h
  · exact h
  · simp only [SocketCall.run, TServerSocket.Open]
    split
    · exact h
    · split <;> exact h
  · simp only [SocketCall.run, TServerSocket.Close]
    split <;> exact h
  · simp only [SocketCall.run, TServerSocket.Interrupt, TServerSocket.Close]
    split <;> rfl

/-- No sequence of calls resets the `interrupted` flag. -/
theorem runCalls_interrupted {ω A L C E T : Type} (net : Net ω A L C E)
    (D : TransportDecls C E T) (cs : List SocketCall) (s : TServerSocket A L × ω)
    (h : s.1.interrupted = true) : (runCalls net D cs s).1.interrupted = true := by
  induction cs generalizing s with
  | nil => exact h
  | cons c cs ih =>
      simp only [runCalls, List.foldl_cons]
      exact ih _ (SocketCall.run_interrupted net D c s h)

/-- The flag is set by `Interrupt`. -/
theorem TServerSocket.Interrupt_sets {ω A L C E : Type} (net : Net ω A L C E)
    (p : TServerSocket A L) (w : ω) :
    (TServerSocket.Interrupt net p w).2.1.interrupted = true := by
  simp only [TServerSocket.Interrupt, TServerSocket.Close]
  split <;> rfl

/-- C10: `Interrupt` returns nil and leaves the socket not listening; and
after it, following any sequence `cs` of `Listen`, `Accept`, `Open`, `Close`
and `Interrupt` calls, whatever the network answers, `Accept` returns a nil
transport and `errTransportInterrupted` and leaves the network state as it
was, so that the listener's `Accept` is not called. -/
theorem TServerSocket.Interrupt_permanent {ω A L C E T : Type}
    (net : Net ω A L C E) (D : TransportDecls C E T) (p : TServerSocket A L)
    (w : ω) (cs : List SocketCall) :
    (TServerSocket.Interrupt net p w).1 = none
      ∧ (TServerSocket.Interrupt net p w).2.1.IsListening = false
      ∧ TServerSocket.Accept net D
          (runCalls net D cs (TServerSocket.Interrupt net p w).2).1
          (runCalls net D cs (TServerSocket.Interrupt net p w).2).2
        = ((none, some D.errTransportInterrupted),
           (runCalls net D cs (TServerSocket.Interrupt net p w).2).2) := by
  refine ⟨rfl, ?_, ?_⟩
  · simp only [TServerSocket.Interrupt, TServerSocket.Close, TServerSocket.IsListening]
    split <;> rfl
  · have hflag := runCalls_interrupted net D cs (TServerSocket.Interrupt net p w).2
      (TServerSocket.Interrupt_sets net p w)
    simp [TServerSocket.Accept, hflag]

/-- A run in which the listener is created again after the interruption:
`Listen` succeeds and the socket is listening, yet `Accept` returns the
interruption error and the listener's `Accept` has not been called. -/
theorem TServerSocket.Interrupt_then_Listen_run :
    (runCalls countingNet plainDecls [SocketCall.Listen, SocketCall.Interrupt, SocketCall.Listen]
        (NewTServerSocketFromAddrTimeout () 0, 0)).1.IsListening = true
      ∧ TServerSocket.Accept countingNet plainDecls
          (runCalls countingNet plainDecls
            [SocketCall.Listen, SocketCall.Interrupt, SocketCall.Listen]
            (NewTServerSocketFromAddrTimeout () 0, 0)).1 0
        = ((none, some 0), 0)
      ∧ TServerSocket.Accept countingNet plainDecls
          (runCalls countingNet plainDecls [SocketCall.Listen]
            (NewTServerSocketFromAddrTimeout () 0, 0)).1 0
        = ((some ((), 0), none), 1) := by
  decide

end Thrift
